import Mathlib

/-!
# Verification of the micropython-om2m-client library

Shallow embedding of `om2m_client/client.py` (class `OM2MClient`) and of the
JSON serialization behaviour it relies on (`ujson.dumps` / a standard JSON
parser), together with theorems settling the specification claims.

The HTTP transport (`urequests`) is modelled as an oracle: each operation
receives the `HttpResult` the server would return for each request it issues,
and we record the full list of requests actually issued.
-/

set_option maxRecDepth 4000

/-- JSON values, as produced by the client's payload dictionaries and by the
`ujson` serializer.  Numbers are modelled as integers (the claims under
verification do not depend on float formatting). -/
inductive Json where
  | null : Json
  | bool (b : Bool) : Json
  | num (n : Int) : Json
  | str (s : String) : Json
  | arr (xs : List Json) : Json
  | obj (kvs : List (String × Json)) : Json

/-- One escaped character of a JSON string literal, as emitted by the
serializer: `"` and backslash are escaped, as are the common control
characters; every other character is emitted verbatim. -/
def escChar (c : Char) : List Char :=
  if c = '"' then ['\\', '"']
  else if c = '\\' then ['\\', '\\']
  else if c = '\n' then ['\\', 'n']
  else if c = '\t' then ['\\', 't']
  else if c = '\r' then ['\\', 'r']
  else [c]

/-- Serialized form of the characters of a JSON string (no quotes). -/
def escList : List Char → List Char
  | [] => []
  | c :: cs => escChar c ++ escList cs

/-- Decimal digit to its character. -/
def digitChar (d : Nat) : Char := Char.ofNat (48 + d)

/-- Decimal characters of a positive natural number (big-endian), emitted by
repeated division; `fuel` bounds the recursion and any `fuel ≥ n` is enough. -/
def natCharsAux : Nat → Nat → List Char
  | 0, _ => []
  | fuel + 1, n =>
      if n = 0 then [] else natCharsAux fuel (n / 10) ++ [digitChar (n % 10)]

/-- Decimal characters of a natural number (big-endian), as printed by the
serializer. -/
def natChars (n : Nat) : List Char :=
  if n = 0 then ['0'] else natCharsAux (n + 1) n

/-- Decimal characters of an integer, with a leading minus sign when
negative. -/
def intChars (n : Int) : List Char :=
  if n < 0 then '-' :: natChars n.natAbs else natChars n.natAbs

mutual

/-- Characters of the compact JSON serialization of a value.  Models
`ujson.dumps` (modulo insignificant whitespace, which it never requires). -/
def dumpChars : Json → List Char
  | .null => "null".data
  | .bool true => "true".data
  | .bool false => "false".data
  | .num n => intChars n
  | .str s => '"' :: (escList s.data ++ ['"'])
  | .arr [] => ['[', ']']
  | .arr (x :: xs) => '[' :: (dumpChars x ++ dumpList xs ++ [']'])
  | .obj [] => ['\x7b', '\x7d']
  | .obj (kv :: kvs) =>
      '\x7b' :: ('"' :: (escList kv.1.data ++ ['"'] ++ [':'] ++ dumpChars kv.2
        ++ dumpObj kvs ++ ['\x7d']))
termination_by structural j => j

/-- Serialization of the remaining elements of a non-empty array, each
preceded by a comma (closing bracket not included). -/
def dumpList : List Json → List Char
  | [] => []
  | x :: xs => ',' :: (dumpChars x ++ dumpList xs)
termination_by structural xs => xs

/-- Serialization of the remaining members of a non-empty object, each
preceded by a comma (closing brace not included). -/
def dumpObj : List (String × Json) → List Char
  | [] => []
  | kv :: kvs =>
      ',' :: ('"' :: (escList kv.1.data ++ ['"'] ++ [':'] ++ dumpChars kv.2 ++ dumpObj kvs))
termination_by structural kvs => kvs

end

/-- `ujson.dumps`: JSON value to its compact serialized string. -/
def dumps (j : Json) : String := String.mk (dumpChars j)

/-- Inverse of `escChar` on the character following a backslash. -/
def unescChar (d : Char) : Option Char :=
  if d = '"' then some '"'
  else if d = '\\' then some '\\'
  else if d = 'n' then some '\n'
  else if d = 't' then some '\t'
  else if d = 'r' then some '\r'
  else none

/-- Parse the body of a JSON string literal, the opening quote already
consumed, accumulating characters in reverse. -/
def parseStrAux (acc : List Char) : List Char → Option (String × List Char)
  | [] => none
  | c :: rest =>
      if c = '"' then some (String.mk acc.reverse, rest)
      else if c = '\\' then
        match rest with
        | [] => none
        | d :: rest2 =>
            match unescChar d with
            | some e => parseStrAux (e :: acc) rest2
            | none => none
      else parseStrAux (c :: acc) rest

/-- Parse a run of decimal digits, folding them onto `acc`; stops at the
first non-digit. -/
def parseNatAux (acc : Nat) : List Char → Nat × List Char
  | [] => (acc, [])
  | c :: rest =>
      if c.isDigit then parseNatAux (acc * 10 + (c.toNat - 48)) rest
      else (acc, c :: rest)

/-- Expect the given literal characters as a prefix of the input. -/
def expectLit : List Char → List Char → Option (List Char)
  | [], rest => some rest
  | _ :: _, [] => none
  | c :: cs, d :: rest => if d = c then expectLit cs rest else none

mutual

/-- Recursive-descent parser for one JSON value (compact form, as emitted by
the serializer); `fuel` bounds the recursion depth. -/
def parseVal : Nat → List Char → Option (Json × List Char)
  | 0, _ => none
  | _ + 1, [] => none
  | fuel + 1, c :: rest =>
      if c = 'n' then (expectLit ['u', 'l', 'l'] rest).map (fun r => (.null, r))
      else if c = 't' then (expectLit ['r', 'u', 'e'] rest).map (fun r => (.bool true, r))
      else if c = 'f' then (expectLit ['a', 'l', 's', 'e'] rest).map (fun r => (.bool false, r))
      else if c = '"' then (parseStrAux [] rest).map (fun p => (.str p.1, p.2))
      else if c = '[' then
        if rest.head? = some ']' then some (.arr [], rest.tail)
        else
          (parseVal fuel rest).bind fun p =>
            (parseArrTail fuel p.2).map fun q => (.arr (p.1 :: q.1), q.2)
      else if c = '\x7b' then
        if rest.head? = some '\x7d' then some (.obj [], rest.tail)
        else
          (parseMember fuel rest).bind fun p =>
            (parseObjTail fuel p.2).map fun q => (.obj (p.1 :: q.1), q.2)
      else if c = '-' then
        if rest.head?.any Char.isDigit then
          some (.num (-((parseNatAux 0 rest).1 : Int)), (parseNatAux 0 rest).2)
        else none
      else if c.isDigit then
        some (.num ((parseNatAux 0 (c :: rest)).1 : Int), (parseNatAux 0 (c :: rest)).2)
      else none

/-- Parse the rest of a JSON array after one element: a closing bracket, or
comma-separated further elements. -/
def parseArrTail : Nat → List Char → Option (List Json × List Char)
  | 0, _ => none
  | fuel + 1, input =>
      if input.head? = some ']' then some ([], input.tail)
      else if input.head? = some ',' then
        (parseVal fuel input.tail).bind fun p =>
          (parseArrTail fuel p.2).map fun q => (p.1 :: q.1, q.2)
      else none

/-- Parse one `"key":value` member of a JSON object. -/
def parseMember : Nat → List Char → Option ((String × Json) × List Char)
  | 0, _ => none
  | fuel + 1, input =>
      if input.head? = some '"' then
        (parseStrAux [] input.tail).bind fun p =>
          if p.2.head? = some ':' then
            (parseVal fuel p.2.tail).map fun q => ((p.1, q.1), q.2)
          else none
      else none

/-- Parse the rest of a JSON object after one member: a closing brace, or
comma-separated further members. -/
def parseObjTail : Nat → List Char → Option (List (String × Json) × List Char)
  | 0, _ => none
  | fuel + 1, input =>
      if input.head? = some '\x7d' then some ([], input.tail)
      else if input.head? = some ',' then
        (parseMember fuel input.tail).bind fun p =>
          (parseObjTail fuel p.2).map fun q => (p.1 :: q.1, q.2)
      else none

end

/-- A JSON parser over strings: parse one value that must consume the whole
input.  The fuel `s.length + 1` always suffices (`jsize_le_dump_length`). -/
def parseJson (s : String) : Option Json :=
  match parseVal (s.length + 1) s.data with
  | some (j, []) => some j
  | _ => none

mutual

/-- Fuel needed by `parseVal` on the serialized form of a value. -/
def jsize : Json → Nat
  | .obj kvs => 1 + osize kvs
  | .arr xs => 1 + lsize xs
  | .null => 1
  | .bool _ => 1
  | .num _ => 1
  | .str _ => 1
termination_by structural j => j

/-- Fuel needed by `parseArrTail` on the serialized tail of an array. -/
def lsize : List Json → Nat
  | [] => 0
  | x :: xs => 1 + jsize x + lsize xs
termination_by structural xs => xs

/-- Fuel needed by `parseObjTail` on the serialized tail of an object. -/
def osize : List (String × Json) → Nat
  | [] => 0
  | kv :: kvs => 2 + jsize kv.2 + osize kvs
termination_by structural kvs => kvs

end

/-- The input does not start with a decimal digit (so a preceding number
literal cannot swallow it). -/
def headNotDigit : List Char → Prop
  | [] => True
  | c :: _ => c.isDigit = false

/-- A Python value handed to `send_data`: either a JSON-serializable value or
an opaque object on which `ujson.dumps` raises (e.g. a `TypeError`). -/
inductive PyVal where
  | jsonable (j : Json) : PyVal
  | opaque_ (message : String) : PyVal

/-- `ujson.dumps` applied to an arbitrary Python value: returns the
serialized string, or the serializer's own exception message. -/
def dumpsP : PyVal → Except String String
  | .jsonable j => .ok (dumps j)
  | .opaque_ m => .error m

/-- `OM2MError` — the library's single exception class.
Modelled from the spec: the class lives in `om2m_client/exceptions.py`,
which is not part of the provided sources; per the spec it is the single
error kind, carrying a diagnostic message (status code and response body, or
the underlying transport error description).  `client.py` always constructs
it with a message f-string. -/
structure OM2MError where
  message : String
deriving DecidableEq

/-- A Python exception escaping a client operation: either the library's
`OM2MError` or the serializer's own exception (raised by `ujson.dumps`
outside any `try` block). -/
inductive PyException where
  | om2m (e : OM2MError) : PyException
  | serializerError (message : String) : PyException
deriving DecidableEq

/-- Result of one `urequests` call: a response with its status code and body
text, or a transport-level failure (the exception's description). -/
inductive HttpResult where
  | ok (status_code : Nat) (text : String) : HttpResult
  | transportError (message : String) : HttpResult
deriving DecidableEq

/-- One HTTP request as issued by `urequests.get`/`urequests.post`:
method, URL, header list, and optional JSON body. -/
structure Request where
  method : String
  url : String
  headers : List (String × String)
  body : Option Json

/-- Constructor arguments of `OM2MClient.__init__` (defaults:
`cse_port=8282`, `cse_type="mn"`, `cred="admin:admin"`). -/
structure Config where
  cse_ip : String
  device_name : String
  container_name : String
  cse_port : Nat := 8282
  cse_type : String := "mn"
  cred : String := "admin:admin"
deriving DecidableEq

namespace OM2MClient

/-- `self.cse_name = cse_type + "-name"`. -/
def cse_name (c : Config) : String := c.cse_type ++ "-name"

/-- `self.cse_url = f"http://{self.cse_ip}:{self.cse_port}/~/" + self.cse_name`. -/
def cse_url (c : Config) : String :=
  "http://" ++ c.cse_ip ++ ":" ++ toString c.cse_port ++ "/~/" ++ cse_name c

/-- `self.ae_url = f"{self.cse_url}/{self.device_name}"`. -/
def ae_url (c : Config) : String := cse_url c ++ "/" ++ c.device_name

/-- `self.container_url = f"{self.ae_url}/{self.container_name}"`. -/
def container_url (c : Config) : String := ae_url c ++ "/" ++ c.container_name

/-- `self.headers_ae`. -/
def headers_ae (c : Config) : List (String × String) :=
  [("X-M2M-Origin", c.cred), ("Content-Type", "application/json;ty=2")]

/-- `self.headers_cnt`. -/
def headers_cnt (c : Config) : List (String × String) :=
  [("X-M2M-Origin", c.cred), ("Content-Type", "application/json;ty=3")]

/-- `self.headers_data`. -/
def headers_data (c : Config) : List (String × String) :=
  [("X-M2M-Origin", c.cred), ("Content-Type", "application/json;ty=4")]

/-- The AE registration payload dictionary built by `register_ae`. -/
def ae_payload (c : Config) : Json :=
  .obj [("m2m:ae", .obj
    [("rn", .str c.device_name),
     ("api", .str (c.device_name ++ "_api")),
     ("rr", .bool true),
     ("lbl", .arr [.str c.device_name])])]

/-- `OM2MClient.register_ae`, given the transport's result for its one POST.
Returns the Python outcome and the list of requests issued.  The inner
`raise OM2MError` on an unexpected status is caught by the operation's own
`except Exception` clause and re-wrapped, hence the doubled message prefix. -/
def register_ae (c : Config) (r : HttpResult) :
    Except PyException Unit × List Request :=
  let req : Request := ⟨"POST", cse_url c, headers_ae c, some (ae_payload c)⟩
  match r with
  | .transportError m =>
      (.error (.om2m ⟨"Exception during AE registration: " ++ m⟩), [req])
  | .ok status body =>
      if status = 201 then (.ok (), [req])
      else if status = 409 then (.ok (), [req])
      else
        (.error (.om2m ⟨"Exception during AE registration: " ++
          "Failed to register AE. Status code: " ++ toString status ++
          ", Response: " ++ body⟩), [req])

/-- The container creation payload dictionary built by `create_container`. -/
def cnt_payload (c : Config) : Json :=
  .obj [("m2m:cnt", .obj [("rn", .str c.container_name)])]

/-- `OM2MClient.create_container`, given the transport's results for the
existence-check GET and (if reached) the creation POST. -/
def create_container (c : Config) (r1 r2 : HttpResult) :
    Except PyException Unit × List Request :=
  let getReq : Request := ⟨"GET", container_url c, headers_cnt c, none⟩
  let postReq : Request := ⟨"POST", ae_url c, headers_cnt c, some (cnt_payload c)⟩
  match r1 with
  | .transportError m =>
      (.error (.om2m ⟨"Exception during container creation: " ++ m⟩), [getReq])
  | .ok s1 _ =>
      if s1 = 200 then (.ok (), [getReq])
      else
        match r2 with
        | .transportError m =>
            (.error (.om2m ⟨"Exception during container creation: " ++ m⟩),
             [getReq, postReq])
        | .ok s2 b2 =>
            if s2 = 201 then (.ok (), [getReq, postReq])
            else if s2 = 409 then (.ok (), [getReq, postReq])
            else
              (.error (.om2m ⟨"Exception during container creation: " ++
                "Failed to create container. Status code: " ++ toString s2 ++
                ", Response: " ++ b2⟩), [getReq, postReq])

/-- The descriptor payload dictionary built by `create_descriptor`. -/
def descriptor_payload : Json :=
  .obj [("m2m:cnt", .obj [("rn", .str "DESCRIPTOR")])]

/-- `OM2MClient.create_descriptor`, given the transport's result for its one
POST (there is no existence pre-check). -/
def create_descriptor (c : Config) (r : HttpResult) :
    Except PyException Unit × List Request :=
  let req : Request := ⟨"POST", ae_url c, headers_cnt c, some descriptor_payload⟩
  match r with
  | .transportError m =>
      (.error (.om2m ⟨"Exception during Descriptor creation: " ++ m⟩), [req])
  | .ok status body =>
      if status = 201 then (.ok (), [req])
      else if status = 409 then (.ok (), [req])
      else
        (.error (.om2m ⟨"Exception during Descriptor creation: " ++
          "Failed to create Descriptor. Status code: " ++ toString status ++
          ", Response: " ++ body⟩), [req])

/-- The ContentInstance payload built by `send_data` once serialization of
`data` has succeeded with string `s`. -/
def cin_payload (s : String) : Json :=
  .obj [("m2m:cin", .obj [("cnf", .str "application/json"), ("con", .str s)])]

/-- `OM2MClient.send_data`.  The payload dictionary — and with it the
`ujson.dumps(data)` call — is built before the `try` block, so a serializer
failure propagates as the serializer's own exception and no request is
issued.  Otherwise one POST is issued and interpreted. -/
def send_data (c : Config) (data : PyVal) (r : HttpResult) :
    Except PyException Unit × List Request :=
  match dumpsP data with
  | .error m => (.error (.serializerError m), [])
  | .ok s =>
      let req : Request := ⟨"POST", container_url c, headers_data c, some (cin_payload s)⟩
      match r with
      | .transportError m =>
          (.error (.om2m ⟨"Exception during data upload: " ++ m⟩), [req])
      | .ok status body =>
          if status = 200 ∨ status = 201 ∨ status = 202 then (.ok (), [req])
          else
            (.error (.om2m ⟨"Exception during data upload: " ++
              "Failed to upload data. Status code: " ++ toString status ++
              ", Response: " ++ body⟩), [req])

end OM2MClient

/-- The root key of a request's JSON body, when the body is an object with at
least one member. -/
def bodyRootKey (rq : Request) : Option String :=
  match rq.body with
  | some (.obj ((k, _) :: _)) => some k
  | _ => none

/-- A concrete configuration used for witnesses (the spec's example
scenario). -/
def cfg0 : Config :=
  { cse_ip := "10.0.0.5", device_name := "sensor01", container_name := "readings" }

/-- Big-endian decimal digits of a natural number (`[0]` for zero). -/
def bigDigits (n : Nat) : List Nat :=
  if n = 0 then [0] else (Nat.digits 10 n).reverse

/-- `parseVal` recovers `j` from its serialization, for ample fuel and any
continuation not starting with a digit. -/
def ParsesDump (j : Json) : Prop :=
  ∀ fuel rest, jsize j ≤ fuel → headNotDigit rest →
    parseVal fuel (dumpChars j ++ rest) = some (j, rest)

/-- `parseArrTail` recovers the tail elements of an array from their
serialization followed by the closing bracket. -/
def ParsesDumpList (xs : List Json) : Prop :=
  ∀ fuel rest, lsize xs < fuel →
    parseArrTail fuel (dumpList xs ++ ']' :: rest) = some (xs, rest)

/-- `parseObjTail` recovers the tail members of an object from their
serialization followed by the closing brace. -/
def ParsesDumpObj (kvs : List (String × Json)) : Prop :=
  ∀ fuel rest, osize kvs < fuel →
    parseObjTail fuel (dumpObj kvs ++ '\x7d' :: rest) = some (kvs, rest)

/-! ## Basic lemmas about the serializer's building blocks -/

theorem strMk_data (s : String) : String.mk s.data = s := by
  cases s
  rfl

theorem jsize_pos (j : Json) : 1 ≤ jsize j := by
  cases j <;> simp [jsize]

theorem jsize_le_lsize {x : Json} {xs : List Json} (hx : x ∈ xs) :
    jsize x ≤ lsize xs := by
  induction xs with
  | nil => cases hx
  | cons y ys ih =>
      rcases List.mem_cons.mp hx with h | h
      · subst h
        simp [lsize]
        omega
      · have := ih h
        simp [lsize]
        omega

theorem jsize_le_osize {kv : String × Json} {kvs : List (String × Json)}
    (hkv : kv ∈ kvs) : jsize kv.2 ≤ osize kvs := by
  induction kvs with
  | nil => cases hkv
  | cons y ys ih =>
      rcases List.mem_cons.mp hkv with h | h
      · subst h
        simp [osize]
        omega
      · have := ih h
        simp [osize]
        omega

/-- Structural induction for `Json` through the nested lists, via strong
induction on `jsize`. -/
theorem json_ind (P : Json → Prop)
    (hnull : P .null) (hbool : ∀ b, P (.bool b)) (hnum : ∀ n, P (.num n))
    (hstr : ∀ s, P (.str s))
    (harr : ∀ xs, (∀ x ∈ xs, P x) → P (.arr xs))
    (hobj : ∀ kvs, (∀ kv ∈ kvs, P kv.2) → P (.obj kvs)) :
    ∀ j, P j := by
  have key : ∀ N j, jsize j ≤ N → P j := by
    intro N
    induction N using Nat.strong_induction_on with
    | _ N ih =>
      intro j hj
      match j with
      | .null => exact hnull
      | .bool b => exact hbool b
      | .num n => exact hnum n
      | .str s => exact hstr s
      | .arr xs =>
          refine harr xs (fun x hx => ?_)
          have h1 : jsize x ≤ lsize xs := jsize_le_lsize hx
          have h2 : jsize (.arr xs) = 1 + lsize xs := by simp [jsize]
          exact ih (jsize x) (by omega) x le_rfl
      | .obj kvs =>
          refine hobj kvs (fun kv hkv => ?_)
          have h1 : jsize kv.2 ≤ osize kvs := jsize_le_osize hkv
          have h2 : jsize (.obj kvs) = 1 + osize kvs := by simp [jsize]
          exact ih (jsize kv.2) (by omega) kv.2 le_rfl
  exact fun j => key (jsize j) j le_rfl

theorem digitChar_isDigit : ∀ d, d < 10 → (digitChar d).isDigit = true := by
  decide

theorem digitChar_toNat : ∀ d, d < 10 → (digitChar d).toNat = 48 + d := by
  decide

theorem natCharsAux_eq :
    ∀ fuel n, n ≤ fuel →
      natCharsAux fuel n = ((Nat.digits 10 n).map digitChar).reverse := by
  intro fuel
  induction fuel with
  | zero =>
      intro n hn
      have : n = 0 := by omega
      subst this
      simp [natCharsAux]
  | succ f ih =>
      intro n hn
      by_cases h0 : n = 0
      · subst h0
        simp [natCharsAux]
      · have hdiv : n / 10 < n := Nat.div_lt_self (Nat.pos_of_ne_zero h0) (by norm_num)
        rw [natCharsAux, if_neg h0, ih (n / 10) (by omega),
          Nat.digits_def' (by norm_num : (1:Nat) < 10) (Nat.pos_of_ne_zero h0)]
        simp

theorem natChars_eq_map (n : Nat) : natChars n = (bigDigits n).map digitChar := by
  by_cases h0 : n = 0
  · subst h0
    simp [natChars, bigDigits, digitChar]
  · rw [natChars, if_neg h0, bigDigits, if_neg h0,
      natCharsAux_eq (n + 1) n (by omega), List.map_reverse]

theorem bigDigits_lt (n : Nat) : ∀ d ∈ bigDigits n, d < 10 := by
  intro d hd
  by_cases h0 : n = 0
  · subst h0
    simp [bigDigits] at hd
    omega
  · rw [bigDigits, if_neg h0, List.mem_reverse] at hd
    exact Nat.digits_lt_base (by norm_num) hd

theorem bigDigits_ne_nil (n : Nat) : bigDigits n ≠ [] := by
  by_cases h0 : n = 0
  · subst h0
    simp [bigDigits]
  · rw [bigDigits, if_neg h0]
    simp [Nat.digits_ne_nil_iff_ne_zero, h0]

theorem ofDigits_bigDigits (n : Nat) : Nat.ofDigits 10 (bigDigits n).reverse = n := by
  by_cases h0 : n = 0
  · subst h0
    simp [bigDigits, Nat.ofDigits]
  · rw [bigDigits, if_neg h0, List.reverse_reverse, Nat.ofDigits_digits]

theorem parseNatAux_digits :
    ∀ (ds : List Nat) (acc : Nat) (rest : List Char),
      (∀ d ∈ ds, d < 10) → headNotDigit rest →
      parseNatAux acc (ds.map digitChar ++ rest) =
        (acc * 10 ^ ds.length + Nat.ofDigits 10 ds.reverse, rest) := by
  intro ds
  induction ds with
  | nil =>
      intro acc rest _ hrest
      cases rest with
      | nil => simp [parseNatAux, Nat.ofDigits]
      | cons c r =>
          simp [headNotDigit] at hrest
          simp [parseNatAux, hrest, Nat.ofDigits]
  | cons d ds ih =>
      intro acc rest hds hrest
      have hd : d < 10 := hds d (List.mem_cons_self d ds)
      rw [List.map_cons, List.cons_append, parseNatAux,
        if_pos (digitChar_isDigit d hd), digitChar_toNat d hd]
      have : 48 + d - 48 = d := by omega
      rw [this, ih (acc * 10 + d) rest (fun e he => hds e (List.mem_cons_of_mem d he)) hrest]
      congr 1
      rw [List.reverse_cons, Nat.ofDigits_append, List.length_cons, List.length_reverse,
        Nat.ofDigits_singleton, pow_succ]
      ring

theorem parseNat_natChars (n : Nat) (rest : List Char) (hrest : headNotDigit rest) :
    parseNatAux 0 (natChars n ++ rest) = (n, rest) := by
  rw [natChars_eq_map,
    parseNatAux_digits (bigDigits n) 0 rest (bigDigits_lt n) hrest,
    ofDigits_bigDigits]
  simp

theorem natChars_forall_digit (n : Nat) : ∀ c ∈ natChars n, c.isDigit = true := by
  intro c hc
  rw [natChars_eq_map] at hc
  obtain ⟨d, hd, rfl⟩ := List.mem_map.mp hc
  exact digitChar_isDigit d (bigDigits_lt n d hd)

theorem natChars_head (n : Nat) :
    ∃ c cs, natChars n = c :: cs ∧ c.isDigit = true := by
  have hne : natChars n ≠ [] := by
    rw [natChars_eq_map]
    simp [bigDigits_ne_nil n]
  cases h : natChars n with
  | nil => exact absurd h hne
  | cons c cs =>
      exact ⟨c, cs, rfl, natChars_forall_digit n c (by rw [h]; exact List.mem_cons_self c cs)⟩

/-- The serialized form of any JSON value starts with one of the parser's
dispatch characters. -/
theorem dumpChars_head (j : Json) :
    ∃ c cs, dumpChars j = c :: cs ∧
      (c = 'n' ∨ c = 't' ∨ c = 'f' ∨ c = '"' ∨ c = '[' ∨ c = '\x7b' ∨ c = '-' ∨
        c.isDigit = true) := by
  match j with
  | .null => exact ⟨'n', _, rfl, by tauto⟩
  | .bool true => exact ⟨'t', _, rfl, by tauto⟩
  | .bool false => exact ⟨'f', _, rfl, by tauto⟩
  | .str s => exact ⟨'"', _, rfl, by tauto⟩
  | .arr [] => exact ⟨'[', _, rfl, by tauto⟩
  | .arr (x :: xs) => exact ⟨'[', _, rfl, by tauto⟩
  | .obj [] => exact ⟨'\x7b', _, rfl, by tauto⟩
  | .obj (kv :: kvs) => exact ⟨'\x7b', _, rfl, by tauto⟩
  | .num n =>
      rw [dumpChars, intChars]
      by_cases hn : n < 0
      · exact ⟨'-', _, by rw [if_pos hn], by tauto⟩
      · obtain ⟨c, cs, hc, hdig⟩ := natChars_head n.natAbs
        exact ⟨c, cs, by rw [if_neg hn, hc], by tauto⟩

theorem dump_head_ne_rbracket (j : Json) (L : List Char) :
    (dumpChars j ++ L).head? ≠ some ']' := by
  obtain ⟨c, cs, hc, hclass⟩ := dumpChars_head j
  rw [hc]
  simp only [List.cons_append, List.head?_cons, Option.some.injEq]
  intro h
  rw [Option.some_inj] at h
  subst h
  rcases hclass with h | h | h | h | h | h | h | h <;> simp_all

theorem parseStrAux_quote (acc rest) :
    parseStrAux acc ('"' :: rest) = some (String.mk acc.reverse, rest) := by
  rw [parseStrAux.eq_def]
  simp

theorem parseStrAux_escStep (acc rest : List Char) (d e : Char)
    (h : unescChar d = some e) :
    parseStrAux acc ('\\' :: d :: rest) = parseStrAux (e :: acc) rest := by
  rw [parseStrAux.eq_def]
  simp [h]

theorem parseStrAux_other (acc rest : List Char) (c : Char)
    (h1 : c ≠ '"') (h2 : c ≠ '\\') :
    parseStrAux acc (c :: rest) = parseStrAux (c :: acc) rest := by
  rw [parseStrAux.eq_def]
  simp [h1, h2]

theorem parseStrAux_esc :
    ∀ (cs acc rest : List Char),
      parseStrAux acc (escList cs ++ '"' :: rest) =
        some (String.mk (acc.reverse ++ cs), rest) := by
  intro cs
  induction cs with
  | nil =>
      intro acc rest
      rw [escList, List.nil_append, parseStrAux_quote]
      simp
  | cons c cs ih =>
      intro acc rest
      by_cases h1 : c = '"'
      · subst h1
        rw [escList, show escChar '"' = ['\\', '"'] from rfl, List.append_assoc,
          List.cons_append, List.cons_append, List.nil_append,
          parseStrAux_escStep _ _ '"' '"' rfl, ih]
        simp
      · by_cases h2 : c = '\\'
        · subst h2
          rw [escList, show escChar '\\' = ['\\', '\\'] from rfl, List.append_assoc,
            List.cons_append, List.cons_append, List.nil_append,
            parseStrAux_escStep _ _ '\\' '\\' rfl, ih]
          simp
        · by_cases h3 : c = '\n'
          · subst h3
            rw [escList, show escChar '\n' = ['\\', 'n'] from rfl, List.append_assoc,
              List.cons_append, List.cons_append, List.nil_append,
              parseStrAux_escStep _ _ 'n' '\n' rfl, ih]
            simp
          · by_cases h4 : c = '\t'
            · subst h4
              rw [escList, show escChar '\t' = ['\\', 't'] from rfl, List.append_assoc,
                List.cons_append, List.cons_append, List.nil_append,
                parseStrAux_escStep _ _ 't' '\t' rfl, ih]
              simp
            · by_cases h5 : c = '\r'
              · subst h5
                rw [escList, show escChar '\r' = ['\\', 'r'] from rfl, List.append_assoc,
                  List.cons_append, List.cons_append, List.nil_append,
                  parseStrAux_escStep _ _ 'r' '\r' rfl, ih]
                simp
              · rw [escList, show escChar c = [c] from by
                    rw [escChar, if_neg h1, if_neg h2, if_neg h3, if_neg h4, if_neg h5],
                  List.append_assoc, List.cons_append, List.nil_append,
                  parseStrAux_other _ _ c h1 h2, ih]
                simp

/-! ## Reduction lemmas for the parser's branches -/

theorem pv_null (f : Nat) (rest : List Char) :
    parseVal (f + 1) ('n' :: 'u' :: 'l' :: 'l' :: rest) = some (.null, rest) := by
  rw [parseVal.eq_def]
  simp [expectLit]

theorem pv_true (f : Nat) (rest : List Char) :
    parseVal (f + 1) ('t' :: 'r' :: 'u' :: 'e' :: rest) = some (.bool true, rest) := by
  rw [parseVal.eq_def]
  simp [expectLit]

theorem pv_false (f : Nat) (rest : List Char) :
    parseVal (f + 1) ('f' :: 'a' :: 'l' :: 's' :: 'e' :: rest) = some (.bool false, rest) := by
  rw [parseVal.eq_def]
  simp [expectLit]

theorem pv_str (f : Nat) (rest : List Char) :
    parseVal (f + 1) ('"' :: rest) =
      (parseStrAux [] rest).map (fun p => (.str p.1, p.2)) := by
  rw [parseVal.eq_def]
  simp

theorem pv_arrNil (f : Nat) (rest : List Char) :
    parseVal (f + 1) ('[' :: ']' :: rest) = some (.arr [], rest) := by
  rw [parseVal.eq_def]
  simp

theorem pv_arrCons (f : Nat) (rest : List Char) (h : rest.head? ≠ some ']') :
    parseVal (f + 1) ('[' :: rest) =
      (parseVal f rest).bind fun p =>
        (parseArrTail f p.2).map fun q => (.arr (p.1 :: q.1), q.2) := by
  rw [parseVal.eq_def]
  simp [h]

theorem pv_objNil (f : Nat) (rest : List Char) :
    parseVal (f + 1) ('\x7b' :: '\x7d' :: rest) = some (.obj [], rest) := by
  rw [parseVal.eq_def]
  simp

theorem pv_objCons (f : Nat) (rest : List Char) (h : rest.head? ≠ some '\x7d') :
    parseVal (f + 1) ('\x7b' :: rest) =
      (parseMember f rest).bind fun p =>
        (parseObjTail f p.2).map fun q => (.obj (p.1 :: q.1), q.2) := by
  rw [parseVal.eq_def]
  simp [h]

theorem pv_neg (f : Nat) (rest : List Char) (h : rest.head?.any Char.isDigit = true) :
    parseVal (f + 1) ('-' :: rest) =
      some (.num (-((parseNatAux 0 rest).1 : Int)), (parseNatAux 0 rest).2) := by
  rw [parseVal.eq_def]
  simp [h]

theorem pv_digit (f : Nat) (rest : List Char) (c : Char) (h : c.isDigit = true) :
    parseVal (f + 1) (c :: rest) =
      some (.num ((parseNatAux 0 (c :: rest)).1 : Int), (parseNatAux 0 (c :: rest)).2) := by
  have h1 : c ≠ 'n' := fun h' => by subst h'; exact absurd h (by decide)
  have h2 : c ≠ 't' := fun h' => by subst h'; exact absurd h (by decide)
  have h3 : c ≠ 'f' := fun h' => by subst h'; exact absurd h (by decide)
  have h4 : c ≠ '"' := fun h' => by subst h'; exact absurd h (by decide)
  have h5 : c ≠ '[' := fun h' => by subst h'; exact absurd h (by decide)
  have h6 : c ≠ '\x7b' := fun h' => by subst h'; exact absurd h (by decide)
  have h7 : c ≠ '-' := fun h' => by subst h'; exact absurd h (by decide)
  rw [parseVal.eq_def]
  simp [h1, h2, h3, h4, h5, h6, h7, h]

theorem pat_close (f : Nat) (rest : List Char) :
    parseArrTail (f + 1) (']' :: rest) = some ([], rest) := by
  rw [parseArrTail.eq_def]
  simp

theorem pat_comma (f : Nat) (rest : List Char) :
    parseArrTail (f + 1) (',' :: rest) =
      (parseVal f rest).bind fun p =>
        (parseArrTail f p.2).map fun q => (p.1 :: q.1, q.2) := by
  rw [parseArrTail.eq_def]
  simp

theorem pm_start (f : Nat) (rest : List Char) :
    parseMember (f + 1) ('"' :: rest) =
      (parseStrAux [] rest).bind fun p =>
        if p.2.head? = some ':' then
          (parseVal f p.2.tail).map fun q => ((p.1, q.1), q.2)
        else none := by
  rw [parseMember.eq_def]
  simp

theorem pot_close (f : Nat) (rest : List Char) :
    parseObjTail (f + 1) ('\x7d' :: rest) = some ([], rest) := by
  rw [parseObjTail.eq_def]
  simp

theorem pot_comma (f : Nat) (rest : List Char) :
    parseObjTail (f + 1) (',' :: rest) =
      (parseMember f rest).bind fun p =>
        (parseObjTail f p.2).map fun q => (p.1 :: q.1, q.2) := by
  rw [parseObjTail.eq_def]
  simp

theorem headNotDigit_dumpList (ys : List Json) (rest : List Char) :
    headNotDigit (dumpList ys ++ ']' :: rest) := by
  cases ys with
  | nil => simp [dumpList, headNotDigit]
  | cons y ys => simp [dumpList, headNotDigit]

theorem headNotDigit_dumpObj (kvs : List (String × Json)) (rest : List Char) :
    headNotDigit (dumpObj kvs ++ '\x7d' :: rest) := by
  cases kvs with
  | nil => simp [dumpObj, headNotDigit]
  | cons kv kvs => simp [dumpObj, headNotDigit]

theorem parsesDumpList_of (xs : List Json) (h : ∀ x ∈ xs, ParsesDump x) :
    ParsesDumpList xs := by
  induction xs with
  | nil =>
      intro fuel rest hf
      obtain ⟨f, rfl⟩ : ∃ f, fuel = f + 1 := ⟨fuel - 1, by omega⟩
      rw [dumpList, List.nil_append, pat_close]
  | cons y ys ih =>
      intro fuel rest hf
      rw [lsize] at hf
      obtain ⟨f, rfl⟩ : ∃ f, fuel = f + 1 := ⟨fuel - 1, by omega⟩
      have h1 : 1 ≤ jsize y := jsize_pos y
      rw [dumpList, List.cons_append, List.append_assoc, pat_comma,
        h y (List.mem_cons_self y ys) f _ (by omega) (headNotDigit_dumpList ys rest)]
      simp only [Option.some_bind]
      rw [ih (fun x hx => h x (List.mem_cons_of_mem y hx)) f rest (by omega)]
      simp

theorem parseMember_dump (k : String) (v : Json) (g : Nat) (R : List Char)
    (hv : ParsesDump v) (hg : jsize v ≤ g) (hR : headNotDigit R) :
    parseMember (g + 1) ('"' :: (escList k.data ++ '"' :: ':' :: (dumpChars v ++ R))) =
      some ((k, v), R) := by
  rw [pm_start, parseStrAux_esc]
  simp only [Option.some_bind, List.reverse_nil, List.nil_append, List.head?_cons,
    List.tail_cons, if_pos rfl, strMk_data]
  rw [hv g R hg hR]
  simp

theorem parsesDumpObj_of (kvs : List (String × Json))
    (h : ∀ kv ∈ kvs, ParsesDump kv.2) : ParsesDumpObj kvs := by
  induction kvs with
  | nil =>
      intro fuel rest hf
      obtain ⟨f, rfl⟩ : ∃ f, fuel = f + 1 := ⟨fuel - 1, by omega⟩
      rw [dumpObj, List.nil_append, pot_close]
  | cons kv kvs ih =>
      intro fuel rest hf
      rw [osize] at hf
      obtain ⟨f, rfl⟩ : ∃ f, fuel = f + 1 := ⟨fuel - 1, by omega⟩
      have h1 : 1 ≤ jsize kv.2 := jsize_pos kv.2
      obtain ⟨g, rfl⟩ : ∃ g, f = g + 1 := ⟨f - 1, by omega⟩
      rw [dumpObj, List.cons_append, List.cons_append, pot_comma]
      rw [show (escList kv.1.data ++ ['"'] ++ [':'] ++ dumpChars kv.2 ++ dumpObj kvs)
            ++ '\x7d' :: rest =
          escList kv.1.data ++ '"' :: ':' :: (dumpChars kv.2 ++ (dumpObj kvs ++ '\x7d' :: rest))
          by simp [List.append_assoc]]
      rw [parseMember_dump kv.1 kv.2 g _ (h kv (List.mem_cons_self kv kvs)) (by omega)
        (headNotDigit_dumpObj kvs rest)]
      simp only [Option.some_bind]
      rw [ih (fun x hx => h x (List.mem_cons_of_mem kv hx)) (g + 1) rest (by omega)]
      simp

/-- Every JSON value is recovered by the parser from its serialized form. -/
theorem parsesDump_all : ∀ j, ParsesDump j := by
  refine json_ind ParsesDump ?_ ?_ ?_ ?_ ?_ ?_
  · intro fuel rest hf _
    obtain ⟨f, rfl⟩ : ∃ f, fuel = f + 1 := ⟨fuel - 1, by simp [jsize] at hf; omega⟩
    rw [dumpChars]
    simp only [List.cons_append, List.nil_append]
    exact pv_null f rest
  · intro b fuel rest hf _
    obtain ⟨f, rfl⟩ : ∃ f, fuel = f + 1 := ⟨fuel - 1, by simp [jsize] at hf; omega⟩
    cases b
    · rw [dumpChars]
      simp only [List.cons_append, List.nil_append]
      exact pv_false f rest
    · rw [dumpChars]
      simp only [List.cons_append, List.nil_append]
      exact pv_true f rest
  · intro n fuel rest hf hrest
    obtain ⟨f, rfl⟩ : ∃ f, fuel = f + 1 := ⟨fuel - 1, by simp [jsize] at hf; omega⟩
    rw [dumpChars, intChars]
    by_cases hn : n < 0
    · rw [if_pos hn, List.cons_append, pv_neg]
      · rw [parseNat_natChars n.natAbs rest hrest]
        have : -((n.natAbs : Nat) : Int) = n := by omega
        rw [this]
      · obtain ⟨c, cs, hc, hd⟩ := natChars_head n.natAbs
        rw [hc]
        simp [hd]
    · obtain ⟨c, cs, hc, hd⟩ := natChars_head n.natAbs
      rw [if_neg hn, hc, List.cons_append, pv_digit f _ c hd,
        ← List.cons_append, ← hc, parseNat_natChars n.natAbs rest hrest]
      have : ((n.natAbs : Nat) : Int) = n := by omega
      simp [this]
  · intro s fuel rest hf _
    obtain ⟨f, rfl⟩ : ∃ f, fuel = f + 1 := ⟨fuel - 1, by simp [jsize] at hf; omega⟩
    rw [dumpChars, List.cons_append, pv_str]
    rw [show (escList s.data ++ ['"']) ++ rest = escList s.data ++ '"' :: rest
      by simp [List.append_assoc]]
    rw [parseStrAux_esc]
    simp [strMk_data]
  · intro xs hmem fuel rest hf _
    cases xs with
    | nil =>
        obtain ⟨f, rfl⟩ : ∃ f, fuel = f + 1 := ⟨fuel - 1, by simp [jsize] at hf; omega⟩
        rw [dumpChars]
        simp only [List.cons_append, List.nil_append]
        exact pv_arrNil f rest
    | cons x xs =>
        rw [jsize, lsize] at hf
        have h1 : 1 ≤ jsize x := jsize_pos x
        obtain ⟨f, rfl⟩ : ∃ f, fuel = f + 1 := ⟨fuel - 1, by omega⟩
        rw [dumpChars, List.cons_append]
        rw [show (dumpChars x ++ dumpList xs ++ [']']) ++ rest =
            dumpChars x ++ (dumpList xs ++ ']' :: rest) by simp [List.append_assoc]]
        rw [pv_arrCons f _ (by
          rw [show dumpChars x ++ (dumpList xs ++ ']' :: rest) =
            dumpChars x ++ (dumpList xs ++ ']' :: rest) from rfl]
          exact dump_head_ne_rbracket x _)]
        rw [hmem x (List.mem_cons_self x xs) f _ (by omega) (headNotDigit_dumpList xs rest)]
        simp only [Option.some_bind]
        rw [parsesDumpList_of xs (fun y hy => hmem y (List.mem_cons_of_mem x hy)) f rest
          (by omega)]
        simp
  · intro kvs hmem fuel rest hf _
    cases kvs with
    | nil =>
        obtain ⟨f, rfl⟩ : ∃ f, fuel = f + 1 := ⟨fuel - 1, by simp [jsize] at hf; omega⟩
        rw [dumpChars]
        simp only [List.cons_append, List.nil_append]
        exact pv_objNil f rest
    | cons kv kvs =>
        rw [jsize, osize] at hf
        have h1 : 1 ≤ jsize kv.2 := jsize_pos kv.2
        obtain ⟨f, rfl⟩ : ∃ f, fuel = f + 1 := ⟨fuel - 1, by omega⟩
        obtain ⟨g, rfl⟩ : ∃ g, f = g + 1 := ⟨f - 1, by omega⟩
        rw [dumpChars, List.cons_append, List.cons_append]
        rw [pv_objCons (g + 1) _ (by simp)]
        rw [show (escList kv.1.data ++ ['"'] ++ [':'] ++ dumpChars kv.2 ++ dumpObj kvs
              ++ ['\x7d']) ++ rest =
            escList kv.1.data ++ '"' :: ':' :: (dumpChars kv.2 ++ (dumpObj kvs ++ '\x7d' :: rest))
            by simp [List.append_assoc]]
        rw [parseMember_dump kv.1 kv.2 g _ (hmem kv (List.mem_cons_self kv kvs)) (by omega)
          (headNotDigit_dumpObj kvs rest)]
        simp only [Option.some_bind]
        rw [parsesDumpObj_of kvs (fun y hy => hmem y (List.mem_cons_of_mem kv hy)) (g + 1)
          rest (by omega)]
        simp

theorem natChars_ne_nil (n : Nat) : natChars n ≠ [] := by
  obtain ⟨c, cs, hc, _⟩ := natChars_head n
  simp [hc]

theorem lsize_le_dumpList (xs : List Json)
    (h : ∀ x ∈ xs, jsize x ≤ (dumpChars x).length) :
    lsize xs ≤ (dumpList xs).length := by
  induction xs with
  | nil => simp [lsize, dumpList]
  | cons y ys ih =>
      have hy := h y (List.mem_cons_self y ys)
      have hys := ih (fun x hx => h x (List.mem_cons_of_mem y hx))
      simp only [lsize, dumpList, List.length_cons, List.length_append]
      omega

theorem osize_le_dumpObj (kvs : List (String × Json))
    (h : ∀ kv ∈ kvs, jsize kv.2 ≤ (dumpChars kv.2).length) :
    osize kvs ≤ (dumpObj kvs).length := by
  induction kvs with
  | nil => simp [osize, dumpObj]
  | cons kv kvs ih =>
      have hkv := h kv (List.mem_cons_self kv kvs)
      have hkvs := ih (fun x hx => h x (List.mem_cons_of_mem kv hx))
      simp only [osize, dumpObj, List.length_cons, List.length_append]
      omega

/-- The parser's fuel need never exceeds the serialized length. -/
theorem jsize_le_dump_length : ∀ j, jsize j ≤ (dumpChars j).length := by
  refine json_ind (fun j => jsize j ≤ (dumpChars j).length) ?_ ?_ ?_ ?_ ?_ ?_
  · simp [jsize, dumpChars]
  · intro b
    cases b <;> simp [jsize, dumpChars]
  · intro n
    rw [jsize, dumpChars, intChars]
    by_cases hn : n < 0
    · simp [if_pos hn]
    · rw [if_neg hn]
      have := natChars_ne_nil n.natAbs
      cases h : natChars n.natAbs with
      | nil => exact absurd h this
      | cons c cs => simp
  · intro s
    simp [jsize, dumpChars]
  · intro xs h
    cases xs with
    | nil => simp [jsize, lsize, dumpChars]
    | cons x xs =>
        have hx := h x (List.mem_cons_self x xs)
        have hxs := lsize_le_dumpList xs (fun y hy => h y (List.mem_cons_of_mem x hy))
        simp only [jsize, lsize, dumpChars, List.length_cons, List.length_append]
        omega
  · intro kvs h
    cases kvs with
    | nil => simp [jsize, osize, dumpChars]
    | cons kv kvs =>
        have hkv := h kv (List.mem_cons_self kv kvs)
        have hkvs := osize_le_dumpObj kvs (fun y hy => h y (List.mem_cons_of_mem kv hy))
        simp only [jsize, osize, dumpChars, List.length_cons, List.length_append]
        omega

/-- Serialize-then-parse is the identity on JSON values: `parseJson` recovers
exactly the value `dumps` serialized. -/
theorem parseJson_dumps (j : Json) : parseJson (dumps j) = some j := by
  have h := parsesDump_all j ((dumpChars j).length + 1) [] (by
    have := jsize_le_dump_length j
    omega) trivial
  rw [List.append_nil] at h
  rw [parseJson, dumps]
  rw [show (String.mk (dumpChars j)).length = (dumpChars j).length from rfl,
    show (String.mk (dumpChars j)).data = dumpChars j from rfl, h]

/-! ## Claim theorems -/

/-- C1: for every HTTP status returned to the registerAE POST, status 201
completes without error, status 409 completes without error, and any other
status — as well as any transport-level failure — raises the library's error
(`OM2MError`, the spec's `CSEOperationError`) whose message carries the
status code and response body, or the transport error description. -/
theorem C1_register_ae_outcomes (c : Config) :
    (∀ b, (OM2MClient.register_ae c (.ok 201 b)).1 = .ok ()) ∧
    (∀ b, (OM2MClient.register_ae c (.ok 409 b)).1 = .ok ()) ∧
    (∀ s b, s ≠ 201 → s ≠ 409 →
      (OM2MClient.register_ae c (.ok s b)).1 =
        .error (.om2m ⟨"Exception during AE registration: " ++
          "Failed to register AE. Status code: " ++ toString s ++
          ", Response: " ++ b⟩)) ∧
    (∀ m, (OM2MClient.register_ae c (.transportError m)).1 =
      .error (.om2m ⟨"Exception during AE registration: " ++ m⟩)) := by
  refine ⟨fun b => by simp [OM2MClient.register_ae],
    fun b => by simp [OM2MClient.register_ae],
    fun s b h1 h2 => by simp [OM2MClient.register_ae, h1, h2],
    fun m => by simp [OM2MClient.register_ae]⟩

theorem C1_register_ae_outcomes_witness :
    (OM2MClient.register_ae cfg0 (.ok 201 "")).1 = .ok () ∧
    (OM2MClient.register_ae cfg0 (.ok 409 "")).1 = .ok () ∧
    (OM2MClient.register_ae cfg0 (.ok 500 "err")).1 =
      .error (.om2m ⟨"Exception during AE registration: " ++
        "Failed to register AE. Status code: " ++ toString 500 ++
        ", Response: " ++ "err"⟩) ∧
    (OM2MClient.register_ae cfg0 (.transportError "ECONNREFUSED")).1 =
      .error (.om2m ⟨"Exception during AE registration: " ++ "ECONNREFUSED"⟩) :=
  ⟨(C1_register_ae_outcomes cfg0).1 "",
   (C1_register_ae_outcomes cfg0).2.1 "",
   (C1_register_ae_outcomes cfg0).2.2.1 500 "err" (by decide) (by decide),
   (C1_register_ae_outcomes cfg0).2.2.2 "ECONNREFUSED"⟩

/-- C3: when the pre-check GET on `container_url` returns status 200,
createContainer succeeds immediately, issuing exactly one request (the GET)
and no POST — whatever the would-be second response. -/
theorem C3_create_container_precheck_hit (c : Config) (b : String) (r2 : HttpResult) :
    OM2MClient.create_container c (.ok 200 b) r2 =
      (.ok (), [⟨"GET", OM2MClient.container_url c, OM2MClient.headers_cnt c, none⟩]) := by
  simp [OM2MClient.create_container]

/-- C4: when the pre-check GET returns a status other than 200, a POST is
issued to `ae_url`; POST status 201 or 409 completes without error and any
other POST status, or a transport failure, raises the library's error. -/
theorem C4_create_container_post_outcomes (c : Config) (s1 : Nat) (b1 : String)
    (h200 : s1 ≠ 200) :
    (∀ r2, (OM2MClient.create_container c (.ok s1 b1) r2).2 =
      [⟨"GET", OM2MClient.container_url c, OM2MClient.headers_cnt c, none⟩,
       ⟨"POST", OM2MClient.ae_url c, OM2MClient.headers_cnt c,
         some (OM2MClient.cnt_payload c)⟩]) ∧
    (∀ b2, (OM2MClient.create_container c (.ok s1 b1) (.ok 201 b2)).1 = .ok ()) ∧
    (∀ b2, (OM2MClient.create_container c (.ok s1 b1) (.ok 409 b2)).1 = .ok ()) ∧
    (∀ s2 b2, s2 ≠ 201 → s2 ≠ 409 →
      (OM2MClient.create_container c (.ok s1 b1) (.ok s2 b2)).1 =
        .error (.om2m ⟨"Exception during container creation: " ++
          "Failed to create container. Status code: " ++ toString s2 ++
          ", Response: " ++ b2⟩)) ∧
    (∀ m, (OM2MClient.create_container c (.ok s1 b1) (.transportError m)).1 =
      .error (.om2m ⟨"Exception during container creation: " ++ m⟩)) := by
  refine ⟨fun r2 => ?_, fun b2 => by simp [OM2MClient.create_container, h200],
    fun b2 => by simp [OM2MClient.create_container, h200],
    fun s2 b2 h1 h2 => by simp [OM2MClient.create_container, h200, h1, h2],
    fun m => by simp [OM2MClient.create_container, h200]⟩
  cases r2 with
  | ok s2 b2 =>
      by_cases h1 : s2 = 201
      · simp [OM2MClient.create_container, h200, h1]
      · by_cases h2 : s2 = 409 <;> simp [OM2MClient.create_container, h200, h1, h2]
  | transportError m => simp [OM2MClient.create_container, h200]

theorem C4_create_container_post_outcomes_witness :
    (OM2MClient.create_container cfg0 (.ok 404 "nf") (.ok 409 "dup")).1 = .ok () ∧
    (OM2MClient.create_container cfg0 (.ok 404 "nf") (.ok 409 "dup")).2 =
      [⟨"GET", OM2MClient.container_url cfg0, OM2MClient.headers_cnt cfg0, none⟩,
       ⟨"POST", OM2MClient.ae_url cfg0, OM2MClient.headers_cnt cfg0,
         some (OM2MClient.cnt_payload cfg0)⟩] ∧
    (OM2MClient.create_container cfg0 (.ok 404 "nf") (.ok 500 "boom")).1 =
      .error (.om2m ⟨"Exception during container creation: " ++
        "Failed to create container. Status code: " ++ toString 500 ++
        ", Response: " ++ "boom"⟩) :=
  ⟨(C4_create_container_post_outcomes cfg0 404 "nf" (by decide)).2.2.1 "dup",
   (C4_create_container_post_outcomes cfg0 404 "nf" (by decide)).1 (.ok 409 "dup"),
   (C4_create_container_post_outcomes cfg0 404 "nf" (by decide)).2.2.2.1 500 "boom"
     (by decide) (by decide)⟩

/-- C2, counterexample: at the example configuration, the AE registration
request's body root key is `"m2m:ae"`, not `"ae"`, and the inner field names
are the oneM2M short names, not the spec's long names. -/
theorem C2_body_root_keys_counterexample :
    (OM2MClient.register_ae cfg0 (.ok 201 "")).2.map bodyRootKey = [some "m2m:ae"] ∧
    OM2MClient.ae_payload cfg0 = .obj [("m2m:ae", .obj
      [("rn", .str "sensor01"), ("api", .str "sensor01_api"),
       ("rr", .bool true), ("lbl", .arr [.str "sensor01"])])] ∧
    "m2m:ae" ≠ "ae" ∧ "rn" ≠ "resourceName" ∧ "api" ≠ "appID" ∧
    "rr" ≠ "requestReachability" ∧ "lbl" ≠ "labels" :=
  ⟨rfl, rfl, by decide, by decide, by decide, by decide, by decide⟩

/-- C2, amended: for every configuration, registerAE POSTs a JSON body with
root key `"m2m:ae"` containing exactly `rn` = deviceName, `api` =
deviceName + "_api", `rr` = true and `lbl` = [deviceName]; the
container-create POST body has root key `"m2m:cnt"` (with `rn` =
containerName) and the data POST body has root key `"m2m:cin"`. -/
theorem C2_request_bodies (c : Config) :
    (∀ r, (OM2MClient.register_ae c r).2.map (·.body) =
      [some (.obj [("m2m:ae", .obj
        [("rn", .str c.device_name), ("api", .str (c.device_name ++ "_api")),
         ("rr", .bool true), ("lbl", .arr [.str c.device_name])])])]) ∧
    (∀ s b r2, s ≠ 200 →
      (OM2MClient.create_container c (.ok s b) r2).2.map (·.body) =
        [none, some (.obj [("m2m:cnt", .obj [("rn", .str c.container_name)])])]) ∧
    (∀ j r, (OM2MClient.send_data c (.jsonable j) r).2.map (·.body) =
      [some (.obj [("m2m:cin", .obj
        [("cnf", .str "application/json"), ("con", .str (dumps j))])])]) := by
  refine ⟨fun r => ?_, fun s b r2 hs => ?_, fun j r => ?_⟩
  · cases r with
    | ok s b =>
        by_cases h1 : s = 201
        · simp [OM2MClient.register_ae, OM2MClient.ae_payload, h1]
        · by_cases h2 : s = 409 <;>
            simp [OM2MClient.register_ae, OM2MClient.ae_payload, h1, h2]
    | transportError m => simp [OM2MClient.register_ae, OM2MClient.ae_payload]
  · cases r2 with
    | ok s2 b2 =>
        by_cases h1 : s2 = 201
        · simp [OM2MClient.create_container, OM2MClient.cnt_payload, hs, h1]
        · by_cases h2 : s2 = 409 <;>
            simp [OM2MClient.create_container, OM2MClient.cnt_payload, hs, h1, h2]
    | transportError m => simp [OM2MClient.create_container, OM2MClient.cnt_payload, hs]
  · cases r with
    | ok s b =>
        by_cases h1 : s = 200 ∨ s = 201 ∨ s = 202 <;>
          simp [OM2MClient.send_data, OM2MClient.cin_payload, dumpsP, h1]
    | transportError m =>
        simp [OM2MClient.send_data, OM2MClient.cin_payload, dumpsP]

theorem C2_request_bodies_witness :
    (OM2MClient.create_container cfg0 (.ok 404 "nf") (.ok 201 "")).2.map (·.body) =
      [none, some (.obj [("m2m:cnt", .obj [("rn", .str "readings")])])] ∧
    (OM2MClient.register_ae cfg0 (.ok 201 "")).2.map (·.body) =
      [some (.obj [("m2m:ae", .obj
        [("rn", .str "sensor01"), ("api", .str ("sensor01" ++ "_api")),
         ("rr", .bool true), ("lbl", .arr [.str "sensor01"])])])] :=
  ⟨(C2_request_bodies cfg0).2.1 404 "nf" (.ok 201 "") (by decide),
   (C2_request_bodies cfg0).1 (.ok 201 "")⟩

/-- C5: a sendData POST completes without error exactly when the status is
200, 201 or 202; any other status, or a transport failure, raises the
library's error. -/
theorem C5_send_data_outcomes (c : Config) (j : Json) :
    (∀ s b, ((OM2MClient.send_data c (.jsonable j) (.ok s b)).1 = .ok ()) ↔
      (s = 200 ∨ s = 201 ∨ s = 202)) ∧
    (∀ s b, s ≠ 200 → s ≠ 201 → s ≠ 202 →
      (OM2MClient.send_data c (.jsonable j) (.ok s b)).1 =
        .error (.om2m ⟨"Exception during data upload: " ++
          "Failed to upload data. Status code: " ++ toString s ++
          ", Response: " ++ b⟩)) ∧
    (∀ m, (OM2MClient.send_data c (.jsonable j) (.transportError m)).1 =
      .error (.om2m ⟨"Exception during data upload: " ++ m⟩)) := by
  refine ⟨fun s b => ?_, fun s b h1 h2 h3 => ?_, fun m => ?_⟩
  · by_cases h : s = 200 ∨ s = 201 ∨ s = 202 <;>
      simp [OM2MClient.send_data, dumpsP, h]
  · have h : ¬(s = 200 ∨ s = 201 ∨ s = 202) := by tauto
    simp [OM2MClient.send_data, dumpsP, h]
  · simp [OM2MClient.send_data, dumpsP]

theorem C5_send_data_outcomes_witness :
    ((OM2MClient.send_data cfg0 (.jsonable (.obj [("temp", .num 21)])) (.ok 202 "")).1 =
        .ok () ↔ ((202:Nat) = 200 ∨ (202:Nat) = 201 ∨ (202:Nat) = 202)) ∧
    (OM2MClient.send_data cfg0 (.jsonable (.obj [("temp", .num 21)])) (.ok 500 "boom")).1 =
      .error (.om2m ⟨"Exception during data upload: " ++
        "Failed to upload data. Status code: " ++ toString 500 ++
        ", Response: " ++ "boom"⟩) :=
  ⟨(C5_send_data_outcomes cfg0 (.obj [("temp", .num 21)])).1 202 "",
   (C5_send_data_outcomes cfg0 (.obj [("temp", .num 21)])).2.1 500 "boom"
     (by decide) (by decide) (by decide)⟩

/-- C6, counterexample: at a concrete payload, the cin envelope's fields are
named `"cnf"` and `"con"` — there is no `"contentInfo"` or `"content"` field
as the claim words it. -/
theorem C6_double_encoding_counterexample :
    (OM2MClient.send_data cfg0 (.jsonable (.obj [("temp", .num 21)]))
        (.ok 201 "")).2.map (·.body) =
      [some (.obj [("m2m:cin", .obj
        [("cnf", .str "application/json"),
         ("con", .str "\x7b\"temp\":21\x7d")])])] ∧
    "cnf" ≠ "contentInfo" ∧ "con" ≠ "content" :=
  ⟨rfl, by decide, by decide⟩

/-- C6, amended: for every JSON-serializable payload, sendData double-encodes
it — the `con` field of the `m2m:cin` envelope is the payload's JSON
serialization, which parses back to the payload exactly, and the `cnf`
field is `"application/json"`. -/
theorem C6_double_encoding_roundtrip (c : Config) (j : Json) (r : HttpResult) :
    (OM2MClient.send_data c (.jsonable j) r).2.map (·.body) =
      [some (.obj [("m2m:cin", .obj
        [("cnf", .str "application/json"), ("con", .str (dumps j))])])] ∧
    parseJson (dumps j) = some j := by
  refine ⟨?_, parseJson_dumps j⟩
  cases r with
  | ok s b =>
      by_cases h : s = 200 ∨ s = 201 ∨ s = 202 <;>
        simp [OM2MClient.send_data, OM2MClient.cin_payload, dumpsP, h]
  | transportError m =>
      simp [OM2MClient.send_data, OM2MClient.cin_payload, dumpsP]

/-- C7: the derived URLs obey the composition invariant — `cse_url` (the
spec's baseURL) is `"http://" ++ host ++ ":" ++ port ++ "/~/" ++ cseType ++
"-name"`, `ae_url` appends `"/" ++ deviceName` and `container_url` appends
`"/" ++ containerName`.  All three are pure functions of the immutable
configuration, computed once at construction. -/
theorem C7_url_composition (c : Config) :
    OM2MClient.cse_url c =
      "http://" ++ c.cse_ip ++ ":" ++ toString c.cse_port ++ "/~/" ++
        c.cse_type ++ "-name" ∧
    OM2MClient.ae_url c = OM2MClient.cse_url c ++ "/" ++ c.device_name ∧
    OM2MClient.container_url c = OM2MClient.ae_url c ++ "/" ++ c.container_name := by
  refine ⟨?_, rfl, rfl⟩
  simp [OM2MClient.cse_url, OM2MClient.cse_name, String.append_assoc]

/-- C8: createDescriptor always issues exactly one request — a POST to
`ae_url` naming the container `"DESCRIPTOR"`, with no pre-check GET — and
201 or 409 completes without error while any other status (or a transport
failure) raises the library's error. -/
theorem C8_create_descriptor (c : Config) :
    (∀ r, (OM2MClient.create_descriptor c r).2 =
      [⟨"POST", OM2MClient.ae_url c, OM2MClient.headers_cnt c,
        some (.obj [("m2m:cnt", .obj [("rn", .str "DESCRIPTOR")])])⟩]) ∧
    (∀ b, (OM2MClient.create_descriptor c (.ok 201 b)).1 = .ok ()) ∧
    (∀ b, (OM2MClient.create_descriptor c (.ok 409 b)).1 = .ok ()) ∧
    (∀ s b, s ≠ 201 → s ≠ 409 →
      (OM2MClient.create_descriptor c (.ok s b)).1 =
        .error (.om2m ⟨"Exception during Descriptor creation: " ++
          "Failed to create Descriptor. Status code: " ++ toString s ++
          ", Response: " ++ b⟩)) ∧
    (∀ m, (OM2MClient.create_descriptor c (.transportError m)).1 =
      .error (.om2m ⟨"Exception during Descriptor creation: " ++ m⟩)) := by
  refine ⟨fun r => ?_, fun b => by simp [OM2MClient.create_descriptor],
    fun b => by simp [OM2MClient.create_descriptor],
    fun s b h1 h2 => by simp [OM2MClient.create_descriptor, h1, h2],
    fun m => by simp [OM2MClient.create_descriptor]⟩
  cases r with
  | ok s b =>
      by_cases h1 : s = 201
      · simp [OM2MClient.create_descriptor, OM2MClient.descriptor_payload, h1]
      · by_cases h2 : s = 409 <;>
          simp [OM2MClient.create_descriptor, OM2MClient.descriptor_payload, h1, h2]
  | transportError m =>
      simp [OM2MClient.create_descriptor, OM2MClient.descriptor_payload]

theorem C8_create_descriptor_witness :
    (OM2MClient.create_descriptor cfg0 (.ok 409 "dup")).2 =
      [⟨"POST", OM2MClient.ae_url cfg0, OM2MClient.headers_cnt cfg0,
        some (.obj [("m2m:cnt", .obj [("rn", .str "DESCRIPTOR")])])⟩] ∧
    (OM2MClient.create_descriptor cfg0 (.ok 409 "dup")).1 = .ok () ∧
    (OM2MClient.create_descriptor cfg0 (.ok 403 "no")).1 =
      .error (.om2m ⟨"Exception during Descriptor creation: " ++
        "Failed to create Descriptor. Status code: " ++ toString 403 ++
        ", Response: " ++ "no"⟩) :=
  ⟨(C8_create_descriptor cfg0).1 (.ok 409 "dup"),
   (C8_create_descriptor cfg0).2.2.1 "dup",
   (C8_create_descriptor cfg0).2.2.2.1 403 "no" (by decide) (by decide)⟩

/-- C9: every request issued by the four operations carries the
`X-M2M-Origin` header valued with the raw credential string, and a
`Content-Type` of `application/json;ty=N` — N = 2 for the AE registration,
N = 3 for the container pre-check GET, the container POST and the
descriptor POST, and N = 4 for the data POST. -/
theorem C9_headers (c : Config) :
    OM2MClient.headers_ae c =
      [("X-M2M-Origin", c.cred), ("Content-Type", "application/json;ty=2")] ∧
    OM2MClient.headers_cnt c =
      [("X-M2M-Origin", c.cred), ("Content-Type", "application/json;ty=3")] ∧
    OM2MClient.headers_data c =
      [("X-M2M-Origin", c.cred), ("Content-Type", "application/json;ty=4")] ∧
    (∀ r, ∀ rq ∈ (OM2MClient.register_ae c r).2, rq.headers = OM2MClient.headers_ae c) ∧
    (∀ r1 r2, ∀ rq ∈ (OM2MClient.create_container c r1 r2).2,
      rq.headers = OM2MClient.headers_cnt c) ∧
    (∀ r, ∀ rq ∈ (OM2MClient.create_descriptor c r).2,
      rq.headers = OM2MClient.headers_cnt c) ∧
    (∀ d r, ∀ rq ∈ (OM2MClient.send_data c d r).2,
      rq.headers = OM2MClient.headers_data c) := by
  refine ⟨rfl, rfl, rfl, fun r rq hrq => ?_, fun r1 r2 rq hrq => ?_,
    fun r rq hrq => ?_, fun d r rq hrq => ?_⟩
  · cases r with
    | ok s b =>
        by_cases h1 : s = 201
        · simp [OM2MClient.register_ae, h1] at hrq
          simp [hrq]
        · by_cases h2 : s = 409 <;>
            [skip; skip] <;> simp [OM2MClient.register_ae, h1, h2] at hrq <;> simp [hrq]
    | transportError m =>
        simp [OM2MClient.register_ae] at hrq
        simp [hrq]
  · cases r1 with
    | ok s1 b1 =>
        by_cases hs : s1 = 200
        · simp [OM2MClient.create_container, hs] at hrq
          simp [hrq]
        · cases r2 with
          | ok s2 b2 =>
              by_cases h1 : s2 = 201
              · simp [OM2MClient.create_container, hs, h1] at hrq
                rcases hrq with h | h <;> simp [h]
              · by_cases h2 : s2 = 409 <;>
                  simp [OM2MClient.create_container, hs, h1, h2] at hrq <;>
                  rcases hrq with h | h <;> simp [h]
          | transportError m =>
              simp [OM2MClient.create_container, hs] at hrq
              rcases hrq with h | h <;> simp [h]
    | transportError m =>
        simp [OM2MClient.create_container] at hrq
        simp [hrq]
  · cases r with
    | ok s b =>
        by_cases h1 : s = 201
        · simp [OM2MClient.create_descriptor, h1] at hrq
          simp [hrq]
        · by_cases h2 : s = 409 <;>
            simp [OM2MClient.create_descriptor, h1, h2] at hrq <;> simp [hrq]
    | transportError m =>
        simp [OM2MClient.create_descriptor] at hrq
        simp [hrq]
  · cases d with
    | jsonable j =>
        cases r with
        | ok s b =>
            by_cases h : s = 200 ∨ s = 201 ∨ s = 202 <;>
              simp [OM2MClient.send_data, dumpsP, h] at hrq <;> simp [hrq]
        | transportError m =>
            simp [OM2MClient.send_data, dumpsP] at hrq
            simp [hrq]
    | opaque_ m => simp [OM2MClient.send_data, dumpsP] at hrq

theorem C9_headers_witness :
    (Request.mk "POST" (OM2MClient.cse_url cfg0) (OM2MClient.headers_ae cfg0)
        (some (OM2MClient.ae_payload cfg0))).headers = OM2MClient.headers_ae cfg0 ∧
    OM2MClient.headers_ae cfg0 =
      [("X-M2M-Origin", "admin:admin"), ("Content-Type", "application/json;ty=2")] :=
  ⟨(C9_headers cfg0).2.2.2.1 (.ok 201 "")
      (Request.mk "POST" (OM2MClient.cse_url cfg0) (OM2MClient.headers_ae cfg0)
        (some (OM2MClient.ae_payload cfg0)))
      (by simp [OM2MClient.register_ae]),
   rfl⟩

/-- C10: when serialization of the payload fails, sendData propagates the
serializer's own exception — not the library's `OM2MError` — and issues no
HTTP request at all: the `ujson.dumps` call happens while building the
payload, before the operation's `try` block is entered. -/
theorem C10_serializer_failure (c : Config) (d : PyVal) (m : String) (r : HttpResult)
    (h : dumpsP d = .error m) :
    OM2MClient.send_data c d r = (.error (.serializerError m), []) := by
  simp [OM2MClient.send_data, h]

theorem C10_serializer_failure_witness :
    dumpsP (.opaque_ "TypeError: object not serializable") =
      .error "TypeError: object not serializable" ∧
    OM2MClient.send_data cfg0 (.opaque_ "TypeError: object not serializable")
        (.ok 201 "") =
      (.error (.serializerError "TypeError: object not serializable"), []) :=
  ⟨rfl, C10_serializer_failure cfg0 (.opaque_ "TypeError: object not serializable")
    "TypeError: object not serializable" (.ok 201 "") rfl⟩
